import Mathlib

/-!
Shallow embedding of the background download scheduler of the
classroom_downloader_api repository: the job state machine
(`app/domain/models.py`), the repository layer (`app/repositories/base.py`,
`app/repositories/download_job_repository.py`,
`app/repositories/video_link_repository.py`) and the worker
(`app/workers/download_worker.py`).

Timestamps (`datetime.utcnow()`) are modelled as `Nat` values supplied by the
caller; the in-memory store backing a repository is a `List` of records keyed
by `id`.
-/

namespace ClassroomDownloader

/-- The `DownloadStatus` enum from `app/domain/models.py`. -/
inductive DownloadStatus
  | PENDING
  | DOWNLOADING
  | COMPLETED
  | FAILED
  | CANCELLED
deriving DecidableEq, Repr

/-- The `DownloadJob` model from `app/domain/models.py` (the columns the worker
and repository touch; optional columns are `Option`). -/
structure DownloadJob where
  id : Nat
  video_link_id : Nat
  status : DownloadStatus
  progress_percent : Nat
  downloaded_bytes : Nat
  total_bytes : Option Nat
  retry_count : Nat
  error_message : Option String
  output_path : Option String
  file_size_bytes : Option Nat
  created_at : Nat
  started_at : Option Nat
  completed_at : Option Nat
deriving DecidableEq, Repr

/-- The `VideoLink` model from `app/domain/models.py` (the columns
`mark_as_downloaded` touches). -/
structure VideoLink where
  id : Nat
  url : String
  is_downloaded : Bool
  download_path : Option String
  file_size_bytes : Option Nat
deriving DecidableEq, Repr

/-- The `BaseRepository.get`: `SELECT ... WHERE model.id == id`, first row or
`None`. -/
def findById {α : Type} (getId : α → Nat) (store : List α) (id : Nat) :
    Option α :=
  store.find? (fun x => getId x == id)

/-- The `BaseRepository.update`: look the record up by id; if absent return
`None` and leave the store unchanged; otherwise apply the field updates and
return the updated record. -/
def baseUpdate {α : Type} (getId : α → Nat) (store : List α) (id : Nat)
    (f : α → α) : Option α × List α :=
  match findById getId store id with
  | none => (none, store)
  | some j => (some (f j), store.map (fun x => if getId x == id then f x else x))

/-- The `DownloadJobRepository` reads (`BaseRepository.get` on `DownloadJob`). -/
def repoGet (store : List DownloadJob) (id : Nat) : Option DownloadJob :=
  findById DownloadJob.id store id

/-- The `DownloadJobRepository` writes (`BaseRepository.update` on
`DownloadJob`). -/
def repoUpdate (store : List DownloadJob) (id : Nat) (f : DownloadJob → DownloadJob) :
    Option DownloadJob × List DownloadJob :=
  baseUpdate DownloadJob.id store id f

/-- Python truthiness of the optional `error_message` argument in
`DownloadJobRepository.update_status`: `if error_message:` is `False` for
`None` and for the empty string. -/
def truthyMsg : Option String → Bool
  | none => false
  | some s => s != ""

/-- The field updates built by `DownloadJobRepository.update_status`
(`update_data`): always `status`; `started_at := now` when the new status is
DOWNLOADING; `completed_at := now` when it is terminal; `error_message` only
when truthy. -/
def applyStatus (status : DownloadStatus) (error_message : Option String)
    (now : Nat) (j : DownloadJob) : DownloadJob :=
  let j1 := { j with status := status }
  let j2 :=
    if status = DownloadStatus.DOWNLOADING then
      { j1 with started_at := some now }
    else if status = DownloadStatus.COMPLETED ∨ status = DownloadStatus.FAILED
        ∨ status = DownloadStatus.CANCELLED then
      { j1 with completed_at := some now }
    else j1
  if truthyMsg error_message then { j2 with error_message := error_message }
  else j2

/-- The `DownloadJobRepository.update_status`. -/
def update_status (store : List DownloadJob) (job_id : Nat)
    (status : DownloadStatus) (error_message : Option String) (now : Nat) :
    Option DownloadJob × List DownloadJob :=
  repoUpdate store job_id (applyStatus status error_message now)

/-- The field updates performed by `DownloadJobRepository.update_progress`:
`progress_percent` and `downloaded_bytes` always, `total_bytes` only when
given. -/
def applyProgress (progress_percent downloaded_bytes : Nat)
    (total_bytes : Option Nat) (j : DownloadJob) : DownloadJob :=
  let j1 := { j with progress_percent := progress_percent,
                     downloaded_bytes := downloaded_bytes }
  match total_bytes with
  | some t => { j1 with total_bytes := some t }
  | none => j1

/-- The `DownloadJobRepository.update_progress`. -/
def update_progress (store : List DownloadJob) (job_id : Nat)
    (progress_percent downloaded_bytes : Nat) (total_bytes : Option Nat) :
    Option DownloadJob × List DownloadJob :=
  repoUpdate store job_id (applyProgress progress_percent downloaded_bytes total_bytes)

/-- The `DownloadJobRepository.increment_retry_count`: read the job, then write
`retry_count := job.retry_count + 1` through `BaseRepository.update`. -/
def increment_retry_count (store : List DownloadJob) (job_id : Nat) :
    Option DownloadJob × List DownloadJob :=
  match repoGet store job_id with
  | none => (none, store)
  | some job => repoUpdate store job_id (fun k => { k with retry_count := job.retry_count + 1 })

/-- The `VideoLinkRepository.mark_as_downloaded`: `BaseRepository.update` setting
`is_downloaded := True`, `download_path` and `file_size_bytes`. -/
def mark_as_downloaded (store : List VideoLink) (video_link_id : Nat)
    (download_path : String) (file_size_bytes : Nat) :
    Option VideoLink × List VideoLink :=
  baseUpdate VideoLink.id store video_link_id (fun l =>
    { l with is_downloaded := true,
             download_path := some download_path,
             file_size_bytes := some file_size_bytes })

/-- The `DownloadJobRepository.get_by_status`: `WHERE status == st OFFSET skip
LIMIT limit ORDER BY created_at` (ascending). The SQL `ORDER BY` is modelled
by a (stable) insertion sort on `created_at`. -/
def get_by_status (store : List DownloadJob) (st : DownloadStatus)
    (skip limit : Nat) : List DownloadJob :=
  ((((store.filter (fun j => j.status = st)).insertionSort
      (fun a b => a.created_at ≤ b.created_at)).drop skip).take limit)

/-- The `DownloadWorker._sanitize_filename`: the characters replaced by `_`. -/
def invalid_chars : List Char := ['<', '>', ':', '"', '/', '\\', '|', '?', '*']

/-- One `filename.replace(char, "_")` step of `_sanitize_filename`. -/
def replace_char (c : Char) (s : List Char) : List Char :=
  s.map (fun x => if x = c then '_' else x)

/-- The `DownloadWorker._sanitize_filename`: replace every invalid character by
`_`, then truncate to at most 100 characters. -/
def sanitize_filename (s : String) : String :=
  ⟨(invalid_chars.foldl (fun acc c => replace_char c acc) s.data).take 100⟩

/-- One poll cycle's claim decision (`DownloadWorker._process_pending_jobs`):
fetch PENDING jobs with `limit = max_concurrent_downloads = C`, drop those
whose id is already in `current_jobs`, compute
`available_slots = C - len(current_jobs)` (a Python `int`, possibly
negative), return early if `available_slots <= 0`, else claim the first
`available_slots` of the remaining jobs. -/
def process_pending_jobs (C : Nat) (current_jobs : Finset Nat)
    (store : List DownloadJob) : List DownloadJob :=
  let pending_jobs := get_by_status store DownloadStatus.PENDING 0 C
  let jobs_to_process := pending_jobs.filter (fun j => decide (j.id ∉ current_jobs))
  let available_slots : Int := (C : Int) - current_jobs.card
  if available_slots ≤ 0 then []
  else jobs_to_process.take available_slots.toNat

/-- The per-job actions of the claim loop in `_process_pending_jobs`:
`self.current_jobs.add(job.id)` then
`asyncio.create_task(self._process_download_job(job.id))`. -/
inductive PollAction
  | addInflight (id : Nat)
  | startFetch (id : Nat)
deriving DecidableEq, Repr

/-- The ordered action trace of the claim loop: for each claimed job, the id
is added to the in-flight set and then its fetch task is started. -/
def poll_trace (claimed : List DownloadJob) : List PollAction :=
  (claimed.map (fun j => [PollAction.addInflight j.id, PollAction.startFetch j.id])).flatten

/-- Checks that along an action trace every `startFetch id` is preceded by an
`addInflight id` (given the ids already in-flight at the start). -/
def startsCovered (seen : List Nat) : List PollAction → Bool
  | [] => true
  | PollAction.addInflight id :: rest => startsCovered (id :: seen) rest
  | PollAction.startFetch id :: rest => seen.contains id && startsCovered seen rest

/-- Events driving the worker's in-flight set (`self.current_jobs`): a poll
cycle over a snapshot of the job store, or the guaranteed-cleanup removal
(`finally: self.current_jobs.discard(job_id)`) when a fetch task ends. -/
inductive WorkerEvent
  | poll (store : List DownloadJob)
  | finish (id : Nat)

/-- One step of the in-flight set: a poll adds the claimed ids, a finishing
task discards its id. -/
def worker_step (C : Nat) (s : Finset Nat) : WorkerEvent → Finset Nat
  | WorkerEvent.poll store =>
      s ∪ ((process_pending_jobs C s store).map (fun j => j.id)).toFinset
  | WorkerEvent.finish id => s.erase id

/-- The in-flight set after a sequence of events, starting from the empty set
(`self.current_jobs = set()`). -/
def worker_run (C : Nat) (events : List WorkerEvent) : Finset Nat :=
  events.foldl (worker_step C) ∅

/-- Outcome of `self.video_downloader.download_video(...)`: either the
`(success, output_path, error_message)` triple it returns (`file_size` is
`output_path.stat().st_size`, the size of the output file when present), or
an exception escaping the call with text `str(e)`. -/
inductive FetchOutcome
  | returns (success : Bool) (output_path : Option String) (file_size : Nat)
      (error_message : Option String)
  | raises (exc_text : String)

/-- The job store and the video-link store the worker writes to. -/
structure StoreState where
  jobs : List DownloadJob
  links : List VideoLink
deriving DecidableEq, Repr

/-- The completion write of `_process_download_job` (the `if success and
output_path: ... else: ...` block): on success, `BaseRepository.update` with
COMPLETED/100%/path/size plus `mark_as_downloaded` on the job's video link;
on failure, retry (increment + back to PENDING) when the snapshot's
`retry_count < max_retries`, else `update_status(FAILED)`. `jobSnapshot` is
the job row read by `get_with_details` before the download started. -/
def finish_download_job (maxRetries : Nat) (st : StoreState)
    (jobSnapshot : DownloadJob) (job_id : Nat) (success : Bool)
    (output_path : Option String) (file_size : Nat)
    (error_message : Option String) (now : Nat) : StoreState :=
  match success, output_path with
  | true, some path =>
      { jobs := (repoUpdate st.jobs job_id (fun j =>
          { j with status := DownloadStatus.COMPLETED,
                   progress_percent := 100,
                   output_path := some path,
                   file_size_bytes := some file_size })).2,
        links := (mark_as_downloaded st.links jobSnapshot.video_link_id path file_size).2 }
  | _, _ =>
      if jobSnapshot.retry_count < maxRetries then
        let jobs1 := (increment_retry_count st.jobs job_id).2
        { st with jobs := (update_status jobs1 job_id DownloadStatus.PENDING error_message now).2 }
      else
        { st with jobs := (update_status st.jobs job_id DownloadStatus.FAILED error_message now).2 }

/-- The `DownloadWorker._process_download_job`: load the job (with its joined
video link); if absent, return. Otherwise transition to DOWNLOADING, apply
the progress-callback writes issued during the transfer
(`progressEvents`, each a `(progress_percent, downloaded_bytes, total_bytes)`
triple), then act on the fetch outcome: an escaping exception is caught and
recorded as `update_status(FAILED, error_message=str(e))`; a returned triple
goes through the completion write. -/
def process_download_job (maxRetries : Nat) (st : StoreState) (job_id : Nat)
    (progressEvents : List (Nat × Nat × Option Nat)) (outcome : FetchOutcome)
    (nowStart nowFinish : Nat) : StoreState :=
  match repoGet st.jobs job_id with
  | none => st
  | some job =>
    match findById VideoLink.id st.links job.video_link_id with
    | none => st
    | some _ =>
      let jobs1 := (update_status st.jobs job_id DownloadStatus.DOWNLOADING none nowStart).2
      let jobs2 := progressEvents.foldl
        (fun js e => (update_progress js job_id e.1 e.2.1 e.2.2).2) jobs1
      match outcome with
      | FetchOutcome.raises e =>
          { st with jobs := (update_status jobs2 job_id DownloadStatus.FAILED (some e) nowFinish).2 }
      | FetchOutcome.returns success out fs err =>
          finish_download_job maxRetries { st with jobs := jobs2 } job job_id success out fs err nowFinish

/-! Sample records used by concrete scenarios. -/

/-- A freshly created download job (all defaulted columns at their model
defaults, status PENDING). -/
def sampleJob : DownloadJob :=
  { id := 1, video_link_id := 7, status := DownloadStatus.PENDING,
    progress_percent := 0, downloaded_bytes := 0, total_bytes := none,
    retry_count := 0, error_message := none, output_path := none,
    file_size_bytes := none, created_at := 0, started_at := none,
    completed_at := none }

/-- A not-yet-downloaded video link referenced by `sampleJob`. -/
def sampleLink : VideoLink :=
  { id := 7, url := "http://example/video", is_downloaded := false,
    download_path := none, file_size_bytes := none }

/-- A PENDING job with id `n` created at time `n`. -/
def mkJob (n : Nat) : DownloadJob :=
  { sampleJob with id := n, created_at := n }

/-- Ten PENDING jobs, listed in reverse creation order (ids 10 down to 1). -/
def jobs10 : List DownloadJob :=
  (List.range 10).map (fun n => mkJob (10 - n))

/-! Helper lemmas about the repository layer. -/

theorem findById_baseUpdate {α : Type} (getId : α → Nat) (store : List α)
    (id : Nat) (f : α → α) (j : α) (hf : ∀ x, getId (f x) = getId x)
    (h : findById getId store id = some j) :
    findById getId (baseUpdate getId store id f).2 id = some (f j) := by
  unfold baseUpdate
  rw [h]
  induction store with
  | nil => simp [findById] at h
  | cons x xs ih =>
    by_cases hx : getId x == id
    · have hj : j = x := by
        simp only [findById, List.find?_cons, hx] at h
        exact (Option.some.injEq _ _ ▸ h).symm
      subst hj
      simp only [List.map_cons, if_pos hx, findById, List.find?_cons]
      have : (getId (f j) == id) = true := by rw [hf]; exact hx
      simp [this]
    · have hx' : (getId x == id) = false := by
        simpa using hx
      simp only [findById, List.find?_cons, hx'] at h
      have := ih h
      simp only [List.map_cons, hx', if_neg, Bool.false_eq_true, not_false_iff,
        findById, List.find?_cons]
      simpa [findById, hx'] using this

theorem applyProgress_preserves (p d : Nat) (t : Option Nat) (j : DownloadJob) :
    (applyProgress p d t j).id = j.id ∧
    (applyProgress p d t j).video_link_id = j.video_link_id ∧
    (applyProgress p d t j).status = j.status ∧
    (applyProgress p d t j).retry_count = j.retry_count ∧
    (applyProgress p d t j).error_message = j.error_message ∧
    (applyProgress p d t j).started_at = j.started_at ∧
    (applyProgress p d t j).completed_at = j.completed_at ∧
    (applyProgress p d t j).created_at = j.created_at := by
  cases t <;> simp [applyProgress]

theorem applyStatus_id (st : DownloadStatus) (e : Option String) (now : Nat)
    (j : DownloadJob) : (applyStatus st e now j).id = j.id := by
  unfold applyStatus
  split <;> split <;> simp_all <;> split <;> simp_all

/-- The job record after the progress-callback writes of one download. -/
def progressFold (events : List (Nat × Nat × Option Nat)) (j : DownloadJob) :
    DownloadJob :=
  events.foldl (fun k e => applyProgress e.1 e.2.1 e.2.2 k) j

theorem progressFold_preserves (events : List (Nat × Nat × Option Nat))
    (j : DownloadJob) :
    (progressFold events j).id = j.id ∧
    (progressFold events j).video_link_id = j.video_link_id ∧
    (progressFold events j).status = j.status ∧
    (progressFold events j).retry_count = j.retry_count ∧
    (progressFold events j).error_message = j.error_message ∧
    (progressFold events j).started_at = j.started_at ∧
    (progressFold events j).completed_at = j.completed_at ∧
    (progressFold events j).created_at = j.created_at := by
  induction events generalizing j with
  | nil => simp [progressFold]
  | cons e rest ih =>
    have h1 := applyProgress_preserves e.1 e.2.1 e.2.2 j
    have h2 := ih (applyProgress e.1 e.2.1 e.2.2 j)
    simp only [progressFold, List.foldl_cons] at h2 ⊢
    obtain ⟨a1, a2, a3, a4, a5, a6, a7, a8⟩ := h1
    obtain ⟨b1, b2, b3, b4, b5, b6, b7, b8⟩ := h2
    exact ⟨b1.trans a1, b2.trans a2, b3.trans a3, b4.trans a4, b5.trans a5,
      b6.trans a6, b7.trans a7, b8.trans a8⟩

theorem repoGet_update_status (store : List DownloadJob) (id : Nat)
    (st : DownloadStatus) (e : Option String) (now : Nat) (j : DownloadJob)
    (h : repoGet store id = some j) :
    repoGet (update_status store id st e now).2 id = some (applyStatus st e now j) :=
  findById_baseUpdate DownloadJob.id store id _ j (applyStatus_id st e now) h

theorem repoGet_progress_writes (events : List (Nat × Nat × Option Nat))
    (store : List DownloadJob) (id : Nat) (j : DownloadJob)
    (h : repoGet store id = some j) :
    repoGet (events.foldl
        (fun js e => (update_progress js id e.1 e.2.1 e.2.2).2) store) id
      = some (progressFold events j) := by
  induction events generalizing store j with
  | nil => simpa [progressFold] using h
  | cons e rest ih =>
    simp only [List.foldl_cons, progressFold] at ih ⊢
    exact ih _ _ (findById_baseUpdate DownloadJob.id store id _ j
      (fun x => (applyProgress_preserves e.1 e.2.1 e.2.2 x).1) h)

theorem repoGet_increment_retry (store : List DownloadJob) (id : Nat)
    (j : DownloadJob) (h : repoGet store id = some j) :
    repoGet (increment_retry_count store id).2 id
      = some { j with retry_count := j.retry_count + 1 } := by
  unfold increment_retry_count
  rw [h]
  exact findById_baseUpdate DownloadJob.id store id _ j (fun _ => rfl) h

theorem linkGet_mark_as_downloaded (store : List VideoLink) (id : Nat)
    (p : String) (s : Nat) (l : VideoLink)
    (h : findById VideoLink.id store id = some l) :
    findById VideoLink.id (mark_as_downloaded store id p s).2 id
      = some { l with is_downloaded := true, download_path := some p,
                      file_size_bytes := some s } :=
  findById_baseUpdate VideoLink.id store id _ l (fun _ => rfl) h

theorem applyStatus_DOWNLOADING (now : Nat) (j : DownloadJob) :
    applyStatus DownloadStatus.DOWNLOADING none now j
      = { j with status := DownloadStatus.DOWNLOADING, started_at := some now } := by
  simp [applyStatus, truthyMsg]

theorem applyStatus_PENDING (msg : String) (hm : msg ≠ "") (now : Nat)
    (j : DownloadJob) :
    applyStatus DownloadStatus.PENDING (some msg) now j
      = { j with status := DownloadStatus.PENDING, error_message := some msg } := by
  simp [applyStatus, truthyMsg, hm]

theorem applyStatus_FAILED (msg : String) (hm : msg ≠ "") (now : Nat)
    (j : DownloadJob) :
    applyStatus DownloadStatus.FAILED (some msg) now j
      = { j with status := DownloadStatus.FAILED, completed_at := some now,
                 error_message := some msg } := by
  simp [applyStatus, truthyMsg, hm]

theorem applyStatus_FAILED_empty (now : Nat) (j : DownloadJob) :
    applyStatus DownloadStatus.FAILED (some ("")) now j
      = { j with status := DownloadStatus.FAILED, completed_at := some now } := by
  simp [applyStatus, truthyMsg]

/-! Claim theorems. -/

/-- C10: updating an id with no stored record is a complete no-op:
`BaseRepository.update` (and hence `update_status`, `update_progress` and
`increment_retry_count`) returns `None` and leaves the store unchanged. -/
theorem update_absent_id_is_noop {α : Type} (getId : α → Nat) (store : List α)
    (jstore : List DownloadJob) (id : Nat) (f : α → α) (st : DownloadStatus)
    (e : Option String) (now p d : Nat) (t : Option Nat)
    (h : findById getId store id = none) (hj : repoGet jstore id = none) :
    baseUpdate getId store id f = (none, store) ∧
    update_status jstore id st e now = (none, jstore) ∧
    update_progress jstore id p d t = (none, jstore) ∧
    increment_retry_count jstore id = (none, jstore) := by
  have hj' : findById DownloadJob.id jstore id = none := hj
  refine ⟨?_, ?_, ?_, ?_⟩ <;>
    simp [baseUpdate, update_status, update_progress, increment_retry_count,
      repoUpdate, repoGet, h, hj']

/-- C10 witness: on an empty store and on a store holding only job 1, every
update operation aimed at id 2 returns `None` and changes nothing. -/
theorem update_absent_id_is_noop_witness :
    baseUpdate DownloadJob.id ([] : List DownloadJob) 2 (fun x => x) = (none, []) ∧
    update_status [sampleJob] 2 DownloadStatus.FAILED none 5 = (none, [sampleJob]) ∧
    update_progress [sampleJob] 2 10 100 none = (none, [sampleJob]) ∧
    increment_retry_count [sampleJob] 2 = (none, [sampleJob]) := by
  have h := update_absent_id_is_noop DownloadJob.id ([] : List DownloadJob)
    [sampleJob] 2 (fun x => x) DownloadStatus.FAILED none 5 10 100 none
    (by decide) (by decide)
  exact ⟨h.1, h.2.1, h.2.2.1, h.2.2.2⟩

/-- A job that a caller has already cancelled. -/
def cancelledJob : DownloadJob :=
  { sampleJob with status := DownloadStatus.CANCELLED }

/-- C1 (code bug): terminal-state immutability under the cancellation race is
NOT enforced. The completion write of `_process_download_job`, applied to a
job whose status is already CANCELLED, unconditionally overwrites the status:
the success write turns CANCELLED into COMPLETED, and the exhausted-retries
failure write turns CANCELLED into FAILED. -/
theorem cancelled_job_overwritten_by_completion :
    ((finish_download_job 3 ⟨[cancelledJob], [sampleLink]⟩ cancelledJob 1
        true (some ("/out.mp4")) 1000 none 20).jobs.map DownloadJob.status
      = [DownloadStatus.COMPLETED]) ∧
    ((finish_download_job 3 ⟨[{ cancelledJob with retry_count := 3 }], [sampleLink]⟩
        { cancelledJob with retry_count := 3 } 1
        false none 0 (some ("boom")) 20).jobs.map DownloadJob.status
      = [DownloadStatus.FAILED]) := by
  constructor <;> rfl

/-- C2 counterexample: a job whose `started_at` was already set to 5 by a
first DOWNLOADING transition gets `started_at` overwritten to 9 by a second
transition into DOWNLOADING (a retry claim); the previously stored value is
not preserved. -/
theorem started_at_overwritten_on_retry :
    ((repoGet (update_status
        [{ sampleJob with started_at := some 5, retry_count := 1 }]
        1 DownloadStatus.DOWNLOADING none 9).2 1).map DownloadJob.started_at
      = some (some 9)) ∧
    ((repoGet (update_status
        [{ sampleJob with started_at := some 5, retry_count := 1 }]
        1 DownloadStatus.DOWNLOADING none 9).2 1).map DownloadJob.started_at
      ≠ some (some 5)) := by
  constructor
  · rfl
  · decide

/-- C2 (amended): `update_status` sets `started_at` to the current time on
EVERY transition into DOWNLOADING; a later PENDING → DOWNLOADING retry
transition therefore overwrites the previously stored `started_at` with the
new attempt's start time instead of preserving it. -/
theorem started_at_set_on_every_downloading (store : List DownloadJob)
    (id now : Nat) (j : DownloadJob) (h : repoGet store id = some j) :
    (repoGet (update_status store id DownloadStatus.DOWNLOADING none now).2 id).map
        DownloadJob.started_at = some (some now) := by
  rw [repoGet_update_status store id DownloadStatus.DOWNLOADING none now j h,
    applyStatus_DOWNLOADING]
  rfl

/-- C2 witness: transitioning job 1 into DOWNLOADING at time 3 stores
`started_at = 3`. -/
theorem started_at_set_on_every_downloading_witness :
    (repoGet (update_status [sampleJob] 1 DownloadStatus.DOWNLOADING none 3).2 1).map
        DownloadJob.started_at = some (some 3) :=
  started_at_set_on_every_downloading [sampleJob] 1 3 sampleJob (by decide)

theorem progressFold_progress_congr (events : List (Nat × Nat × Option Nat))
    (j₁ j₂ : DownloadJob)
    (h1 : j₁.progress_percent = j₂.progress_percent)
    (h2 : j₁.downloaded_bytes = j₂.downloaded_bytes)
    (h3 : j₁.total_bytes = j₂.total_bytes) :
    (progressFold events j₁).progress_percent = (progressFold events j₂).progress_percent ∧
    (progressFold events j₁).downloaded_bytes = (progressFold events j₂).downloaded_bytes ∧
    (progressFold events j₁).total_bytes = (progressFold events j₂).total_bytes := by
  induction events generalizing j₁ j₂ with
  | nil => exact ⟨h1, h2, h3⟩
  | cons e rest ih =>
    simp only [progressFold, List.foldl_cons] at ih ⊢
    apply ih
    · cases e.2.2 <;> simp [applyProgress]
    · cases e.2.2 <;> simp [applyProgress]
    · cases e.2.2 <;> simp [applyProgress, h3]

/-- C3 counterexample: a DOWNLOADING job whose progress callbacks last wrote
50% / 500 bytes fails its fetch with `retry_count = 0 < max_retries = 3`; the
retry transition returns it to PENDING with `retry_count = 1` and the error
recorded, but the progress percentage and byte counters are NOT reset to 0 —
they stay at 50 and 500. -/
theorem retry_does_not_reset_progress :
    ((repoGet (process_download_job 3 ⟨[sampleJob], [sampleLink]⟩ 1
        [(50, 500, some 1000)] (FetchOutcome.returns false none 0 (some ("boom")))
        10 20).jobs 1).map DownloadJob.status = some DownloadStatus.PENDING) ∧
    ((repoGet (process_download_job 3 ⟨[sampleJob], [sampleLink]⟩ 1
        [(50, 500, some 1000)] (FetchOutcome.returns false none 0 (some ("boom")))
        10 20).jobs 1).map DownloadJob.retry_count = some 1) ∧
    ((repoGet (process_download_job 3 ⟨[sampleJob], [sampleLink]⟩ 1
        [(50, 500, some 1000)] (FetchOutcome.returns false none 0 (some ("boom")))
        10 20).jobs 1).map DownloadJob.progress_percent = some 50) ∧
    ((repoGet (process_download_job 3 ⟨[sampleJob], [sampleLink]⟩ 1
        [(50, 500, some 1000)] (FetchOutcome.returns false none 0 (some ("boom")))
        10 20).jobs 1).map DownloadJob.progress_percent ≠ some 0) ∧
    ((repoGet (process_download_job 3 ⟨[sampleJob], [sampleLink]⟩ 1
        [(50, 500, some 1000)] (FetchOutcome.returns false none 0 (some ("boom")))
        10 20).jobs 1).map DownloadJob.downloaded_bytes = some 500) := by
  refine ⟨rfl, rfl, rfl, ?_, rfl⟩
  decide

/-- C3 (amended): when the fetch of a claimed job reports failure with a
non-empty error message while the job's `retry_count` (as read when the job
was claimed) is below `max_retries`, the worker returns the job to PENDING
with `retry_count` incremented by one, the error message recorded, and
`completed_at` untouched; the progress percentage and byte counters are NOT
reset — they keep the values written by the last progress callback. -/
theorem retry_transition_fields (maxRetries : Nat) (st : StoreState)
    (job_id : Nat) (events : List (Nat × Nat × Option Nat)) (msg : String)
    (fs nowStart nowFinish : Nat) (job : DownloadJob) (link : VideoLink)
    (hj : repoGet st.jobs job_id = some job)
    (hl : findById VideoLink.id st.links job.video_link_id = some link)
    (hr : job.retry_count < maxRetries) (hm : msg ≠ "") :
    ∃ j', repoGet (process_download_job maxRetries st job_id events
        (FetchOutcome.returns false none fs (some msg)) nowStart nowFinish).jobs
          job_id = some j' ∧
      j'.status = DownloadStatus.PENDING ∧
      j'.retry_count = job.retry_count + 1 ∧
      j'.error_message = some msg ∧
      j'.completed_at = job.completed_at ∧
      j'.progress_percent = (progressFold events job).progress_percent ∧
      j'.downloaded_bytes = (progressFold events job).downloaded_bytes := by
  have h1 := repoGet_update_status st.jobs job_id DownloadStatus.DOWNLOADING
    none nowStart job hj
  rw [applyStatus_DOWNLOADING] at h1
  have h2 := repoGet_progress_writes events _ job_id _ h1
  have h3 := repoGet_increment_retry _ job_id _ h2
  have h4 := repoGet_update_status _ job_id DownloadStatus.PENDING (some msg)
    nowFinish _ h3
  rw [applyStatus_PENDING msg hm] at h4
  have hpres := progressFold_preserves events
    { job with status := DownloadStatus.DOWNLOADING, started_at := some nowStart }
  have hcongr := progressFold_progress_congr events
    { job with status := DownloadStatus.DOWNLOADING, started_at := some nowStart }
    job rfl rfl rfl
  refine ⟨_,
    (by simp only [process_download_job, hj, hl]
        simp only [finish_download_job, if_pos hr]
        exact h4),
    ?_, ?_, ?_, ?_, ?_, ?_⟩
  · rfl
  · exact congrArg Nat.succ hpres.2.2.2.1
  · rfl
  · exact hpres.2.2.2.2.2.2.1
  · exact hcongr.1
  · exact hcongr.2.1

/-- C3 witness: a concrete failed fetch (`retry_count 0 < max_retries 3`,
last progress write 50% / 500 bytes) goes back to PENDING with
`retry_count = 1`, the message recorded, `completed_at` unset and progress
left at 50% / 500 bytes. -/
theorem retry_transition_fields_witness :
    ∃ j', repoGet (process_download_job 3 ⟨[sampleJob], [sampleLink]⟩ 1
        [(50, 500, some 1000)] (FetchOutcome.returns false none 0 (some ("boom")))
        10 20).jobs 1 = some j' ∧
      j'.status = DownloadStatus.PENDING ∧
      j'.retry_count = sampleJob.retry_count + 1 ∧
      j'.error_message = some ("boom") ∧
      j'.completed_at = sampleJob.completed_at ∧
      j'.progress_percent = (progressFold [(50, 500, some 1000)] sampleJob).progress_percent ∧
      j'.downloaded_bytes = (progressFold [(50, 500, some 1000)] sampleJob).downloaded_bytes :=
  retry_transition_fields 3 ⟨[sampleJob], [sampleLink]⟩ 1
    [(50, 500, some 1000)] "boom" 0 10 20 sampleJob sampleLink
    (by decide) (by decide) (by decide) (by decide)

/-- C4: on a fetch failure (with a non-empty error message, as the fetcher
guarantees), the worker returns the job to PENDING exactly when the claimed
job's `retry_count < max_retries`, and transitions it to FAILED exactly when
`retry_count >= max_retries`; in the FAILED case the final error message is
recorded and `completed_at` is set. -/
theorem failure_retry_iff_under_max (maxRetries : Nat) (st : StoreState)
    (job_id : Nat) (events : List (Nat × Nat × Option Nat)) (msg : String)
    (fs nowStart nowFinish : Nat) (job : DownloadJob) (link : VideoLink)
    (hj : repoGet st.jobs job_id = some job)
    (hl : findById VideoLink.id st.links job.video_link_id = some link)
    (hm : msg ≠ "") :
    ∃ j', repoGet (process_download_job maxRetries st job_id events
        (FetchOutcome.returns false none fs (some msg)) nowStart nowFinish).jobs
          job_id = some j' ∧
      (j'.status = DownloadStatus.PENDING ↔ job.retry_count < maxRetries) ∧
      (j'.status = DownloadStatus.FAILED ↔ maxRetries ≤ job.retry_count) ∧
      (maxRetries ≤ job.retry_count →
        j'.error_message = some msg ∧ j'.completed_at = some nowFinish) := by
  have h1 := repoGet_update_status st.jobs job_id DownloadStatus.DOWNLOADING
    none nowStart job hj
  rw [applyStatus_DOWNLOADING] at h1
  have h2 := repoGet_progress_writes events _ job_id _ h1
  by_cases hr : job.retry_count < maxRetries
  · have h3 := repoGet_increment_retry _ job_id _ h2
    have h4 := repoGet_update_status _ job_id DownloadStatus.PENDING (some msg)
      nowFinish _ h3
    rw [applyStatus_PENDING msg hm] at h4
    refine ⟨_,
      (by simp only [process_download_job, hj, hl]
          simp only [finish_download_job, if_pos hr]
          exact h4),
      ?_, ?_, ?_⟩
    · exact ⟨fun _ => hr, fun _ => rfl⟩
    · exact ⟨fun hcon => absurd hcon (by simp), fun hle => absurd hr (by omega)⟩
    · intro hle
      exact absurd hr (by omega)
  · have h4 := repoGet_update_status _ job_id DownloadStatus.FAILED (some msg)
      nowFinish _ h2
    rw [applyStatus_FAILED msg hm] at h4
    refine ⟨_,
      (by simp only [process_download_job, hj, hl]
          simp only [finish_download_job, if_neg hr]
          exact h4),
      ?_, ?_, ?_⟩
    · exact ⟨fun hcon => absurd hcon (by simp), fun hlt => absurd hlt hr⟩
    · exact ⟨fun _ => by omega, fun _ => rfl⟩
    · intro _
      exact ⟨rfl, rfl⟩

/-- C4 witness: with `retry_count = 3` and `max_retries = 3` a failed fetch
puts the job in FAILED (not PENDING), records the message and sets
`completed_at`. -/
theorem failure_retry_iff_under_max_witness :
    ∃ j', repoGet (process_download_job 3
        ⟨[{ sampleJob with retry_count := 3 }], [sampleLink]⟩ 1 []
        (FetchOutcome.returns false none 0 (some ("boom"))) 10 20).jobs
          1 = some j' ∧
      (j'.status = DownloadStatus.PENDING ↔ ({ sampleJob with retry_count := 3 } : DownloadJob).retry_count < 3) ∧
      (j'.status = DownloadStatus.FAILED ↔ 3 ≤ ({ sampleJob with retry_count := 3 } : DownloadJob).retry_count) ∧
      (3 ≤ ({ sampleJob with retry_count := 3 } : DownloadJob).retry_count →
        j'.error_message = some ("boom") ∧ j'.completed_at = some 20) :=
  failure_retry_iff_under_max 3 ⟨[{ sampleJob with retry_count := 3 }], [sampleLink]⟩
    1 [] "boom" 0 10 20 { sampleJob with retry_count := 3 } sampleLink
    (by decide) (by decide) (by decide)

/-- C5: on a fetch reporting success with an output file, the worker marks
the job COMPLETED with `progress_percent = 100`, `output_path` and
`file_size_bytes` set, and marks the job's VideoLink as downloaded with the
same path and size. -/
theorem success_completion_marks_link (maxRetries : Nat) (st : StoreState)
    (job_id : Nat) (events : List (Nat × Nat × Option Nat)) (path : String)
    (fs nowStart nowFinish : Nat) (err : Option String) (job : DownloadJob)
    (link : VideoLink)
    (hj : repoGet st.jobs job_id = some job)
    (hl : findById VideoLink.id st.links job.video_link_id = some link) :
    (∃ j', repoGet (process_download_job maxRetries st job_id events
        (FetchOutcome.returns true (some path) fs err) nowStart nowFinish).jobs
          job_id = some j' ∧
      j'.status = DownloadStatus.COMPLETED ∧
      j'.progress_percent = 100 ∧
      j'.output_path = some path ∧
      j'.file_size_bytes = some fs) ∧
    (∃ l', findById VideoLink.id (process_download_job maxRetries st job_id events
        (FetchOutcome.returns true (some path) fs err) nowStart nowFinish).links
          job.video_link_id = some l' ∧
      l'.is_downloaded = true ∧
      l'.download_path = some path ∧
      l'.file_size_bytes = some fs) := by
  have h1 := repoGet_update_status st.jobs job_id DownloadStatus.DOWNLOADING
    none nowStart job hj
  rw [applyStatus_DOWNLOADING] at h1
  have h2 := repoGet_progress_writes events _ job_id _ h1
  have h3 := findById_baseUpdate DownloadJob.id _ job_id
    (fun j => { j with status := DownloadStatus.COMPLETED,
                       progress_percent := 100,
                       output_path := some path,
                       file_size_bytes := some fs }) _ (fun _ => rfl) h2
  have h5 := linkGet_mark_as_downloaded st.links job.video_link_id path fs link hl
  constructor
  · refine ⟨_,
      (by simp only [process_download_job, hj, hl]
          simp only [finish_download_job]
          exact h3),
      rfl, rfl, rfl, rfl⟩
  · refine ⟨_,
      (by simp only [process_download_job, hj, hl]
          simp only [finish_download_job]
          exact h5),
      rfl, rfl, rfl⟩

/-- C5 witness: a successful fetch of job 1 (file `/out.mp4`, 1000 bytes)
completes the job at 100% and marks video link 7 downloaded with the same
path and size. -/
theorem success_completion_marks_link_witness :
    (∃ j', repoGet (process_download_job 3 ⟨[sampleJob], [sampleLink]⟩ 1
        [(100, 1000, some 1000)] (FetchOutcome.returns true (some ("/out.mp4")) 1000 none)
        10 20).jobs 1 = some j' ∧
      j'.status = DownloadStatus.COMPLETED ∧
      j'.progress_percent = 100 ∧
      j'.output_path = some ("/out.mp4") ∧
      j'.file_size_bytes = some 1000) ∧
    (∃ l', findById VideoLink.id (process_download_job 3 ⟨[sampleJob], [sampleLink]⟩ 1
        [(100, 1000, some 1000)] (FetchOutcome.returns true (some ("/out.mp4")) 1000 none)
        10 20).links sampleJob.video_link_id = some l' ∧
      l'.is_downloaded = true ∧
      l'.download_path = some ("/out.mp4") ∧
      l'.file_size_bytes = some 1000) :=
  success_completion_marks_link 3 ⟨[sampleJob], [sampleLink]⟩ 1
    [(100, 1000, some 1000)] "/out.mp4" 1000 10 20 none sampleJob sampleLink
    (by decide) (by decide)

/-- C8 counterexample: an exception whose text is empty (`str(e) == ""`,
e.g. `raise Exception()`) still sends the job to FAILED, but the exception
text is NOT recorded: `update_status` ignores falsy error messages, so
`error_message` stays `None` instead of becoming the empty exception text. -/
theorem empty_exception_text_not_recorded :
    ((repoGet (process_download_job 3 ⟨[sampleJob], [sampleLink]⟩ 1 []
        (FetchOutcome.raises ("")) 10 20).jobs 1).map DownloadJob.status
      = some DownloadStatus.FAILED) ∧
    ((repoGet (process_download_job 3 ⟨[sampleJob], [sampleLink]⟩ 1 []
        (FetchOutcome.raises ("")) 10 20).jobs 1).map DownloadJob.error_message
      = some none) ∧
    ((repoGet (process_download_job 3 ⟨[sampleJob], [sampleLink]⟩ 1 []
        (FetchOutcome.raises ("")) 10 20).jobs 1).map DownloadJob.error_message
      ≠ some (some (""))) := by
  refine ⟨rfl, rfl, ?_⟩
  decide

/-- C8 (amended): an unhandled exception during fetch orchestration is caught
at the job-execution boundary (the embedding is a total function: nothing
propagates) and sends the job directly to FAILED with `completed_at` set,
bypassing the retry path regardless of `retry_count` (which is left
unchanged); the exception text is recorded as `error_message` only when it is
non-empty — an empty exception text leaves `error_message` unchanged. -/
theorem exception_fails_job_directly (maxRetries : Nat) (st : StoreState)
    (job_id : Nat) (events : List (Nat × Nat × Option Nat)) (e : String)
    (nowStart nowFinish : Nat) (job : DownloadJob) (link : VideoLink)
    (hj : repoGet st.jobs job_id = some job)
    (hl : findById VideoLink.id st.links job.video_link_id = some link) :
    ∃ j', repoGet (process_download_job maxRetries st job_id events
        (FetchOutcome.raises e) nowStart nowFinish).jobs job_id = some j' ∧
      j'.status = DownloadStatus.FAILED ∧
      j'.retry_count = job.retry_count ∧
      j'.completed_at = some nowFinish ∧
      (e ≠ "" → j'.error_message = some e) ∧
      (e = "" → j'.error_message = job.error_message) := by
  have h1 := repoGet_update_status st.jobs job_id DownloadStatus.DOWNLOADING
    none nowStart job hj
  rw [applyStatus_DOWNLOADING] at h1
  have h2 := repoGet_progress_writes events _ job_id _ h1
  have h4 := repoGet_update_status _ job_id DownloadStatus.FAILED (some e)
    nowFinish _ h2
  have hpres := progressFold_preserves events
    { job with status := DownloadStatus.DOWNLOADING, started_at := some nowStart }
  by_cases he : e = ""
  · subst he
    rw [applyStatus_FAILED_empty] at h4
    refine ⟨_,
      (by simp only [process_download_job, hj, hl]
          exact h4),
      ?_, ?_, ?_, ?_, ?_⟩
    · rfl
    · exact hpres.2.2.2.1
    · rfl
    · exact fun hcon => absurd rfl hcon
    · exact fun _ => hpres.2.2.2.2.1
  · rw [applyStatus_FAILED e he] at h4
    refine ⟨_,
      (by simp only [process_download_job, hj, hl]
          exact h4),
      ?_, ?_, ?_, ?_, ?_⟩
    · rfl
    · exact hpres.2.2.2.1
    · rfl
    · exact fun _ => rfl
    · exact fun hcon => absurd hcon he

/-- C8 witness: a non-empty exception text `"crash"` on job 1 with
`retry_count = 2` yields FAILED with the text recorded, `completed_at` set
and `retry_count` unchanged. -/
theorem exception_fails_job_directly_witness :
    ∃ j', repoGet (process_download_job 3
        ⟨[{ sampleJob with retry_count := 2 }], [sampleLink]⟩ 1 []
        (FetchOutcome.raises ("crash")) 10 20).jobs 1 = some j' ∧
      j'.status = DownloadStatus.FAILED ∧
      j'.retry_count = ({ sampleJob with retry_count := 2 } : DownloadJob).retry_count ∧
      j'.completed_at = some 20 ∧
      ("crash" ≠ "" → j'.error_message = some ("crash")) ∧
      ("crash" = "" → j'.error_message = ({ sampleJob with retry_count := 2 } : DownloadJob).error_message) :=
  exception_fails_job_directly 3 ⟨[{ sampleJob with retry_count := 2 }], [sampleLink]⟩
    1 [] "crash" 10 20 { sampleJob with retry_count := 2 } sampleLink
    (by decide) (by decide)

theorem process_pending_jobs_length_le (C : Nat) (s : Finset Nat)
    (store : List DownloadJob) :
    (process_pending_jobs C s store).length ≤ C - s.card := by
  unfold process_pending_jobs
  dsimp only
  split
  · simp
  · refine le_trans (List.length_take_le _ _) ?_
    omega

theorem worker_step_card_le (C : Nat) (s : Finset Nat) (e : WorkerEvent)
    (h : s.card ≤ C) : (worker_step C s e).card ≤ C := by
  cases e with
  | poll store =>
    have h1 := Finset.card_union_le s
      ((process_pending_jobs C s store).map (fun j => j.id)).toFinset
    have h2 := List.toFinset_card_le
      ((process_pending_jobs C s store).map (fun j => j.id))
    have h3 : ((process_pending_jobs C s store).map (fun j => j.id)).length
        = (process_pending_jobs C s store).length := List.length_map _ _
    have h4 := process_pending_jobs_length_le C s store
    simp only [worker_step]
    omega
  | finish id =>
    simp only [worker_step]
    exact le_trans (Finset.card_erase_le) h

theorem worker_foldl_card_le (C : Nat) (events : List WorkerEvent) :
    ∀ s : Finset Nat, s.card ≤ C → (events.foldl (worker_step C) s).card ≤ C := by
  induction events with
  | nil => exact fun s h => h
  | cons e rest ih =>
    intro s h
    exact ih _ (worker_step_card_le C s e h)

/-- C6: the in-flight set (`self.current_jobs`) never holds more than
`C = max_concurrent_downloads` job ids, over every sequence of poll cycles
and fetch completions and every arrival pattern of PENDING jobs; moreover
each poll cycle claims at most `C` minus the current in-flight count. -/
theorem concurrency_ceiling :
    (∀ (C : Nat) (events : List WorkerEvent), (worker_run C events).card ≤ C) ∧
    (∀ (C : Nat) (s : Finset Nat) (store : List DownloadJob),
      (process_pending_jobs C s store).length ≤ C - s.card) := by
  constructor
  · intro C events
    exact worker_foldl_card_le C events ∅ (by simp)
  · exact process_pending_jobs_length_le

instance : IsTotal DownloadJob (fun a b => a.created_at ≤ b.created_at) :=
  ⟨fun a b => Nat.le_total a.created_at b.created_at⟩

instance : IsTrans DownloadJob (fun a b => a.created_at ≤ b.created_at) :=
  ⟨fun _ _ _ hab hbc => Nat.le_trans hab hbc⟩

theorem process_pending_jobs_sublist_sorted (C : Nat) (s : Finset Nat)
    (store : List DownloadJob) :
    (process_pending_jobs C s store).Sublist
      ((store.filter (fun j => j.status = DownloadStatus.PENDING)).insertionSort
        (fun a b => a.created_at ≤ b.created_at)) := by
  unfold process_pending_jobs get_by_status
  dsimp only
  split
  · exact List.nil_sublist _
  · refine ((List.take_sublist _ _).trans ((List.filter_sublist _).trans
      ((List.take_sublist _ _).trans ?_)))
    rw [List.drop_zero]

theorem startsCovered_poll_trace (claimed : List DownloadJob) :
    ∀ seen : List Nat, startsCovered seen (poll_trace claimed) = true := by
  induction claimed with
  | nil => intro seen; rfl
  | cons j rest ih =>
    intro seen
    simp only [poll_trace, List.map_cons, List.flatten_cons, List.cons_append,
      List.nil_append, startsCovered]
    rw [Bool.and_eq_true]
    exact ⟨by simp, ih (j.id :: seen)⟩

/-- C7: each poll cycle claims PENDING jobs in creation-time order (oldest
first), excluding ids already in flight, claiming at most the available
slots; with 10 PENDING jobs, `C = 3` and an empty in-flight set, the first
poll claims exactly the 3 oldest jobs and 7 PENDING jobs are left unclaimed;
and along the claim loop's action trace every fetch start is preceded by the
insertion of that job's id into the in-flight set. -/
theorem fifo_claiming :
    (∀ (C : Nat) (s : Finset Nat) (store : List DownloadJob),
      List.Sorted (fun a b => a.created_at ≤ b.created_at)
          (process_pending_jobs C s store) ∧
        (∀ j ∈ process_pending_jobs C s store,
          j.status = DownloadStatus.PENDING ∧ j.id ∉ s) ∧
        (process_pending_jobs C s store).length ≤ C - s.card) ∧
    ((process_pending_jobs 3 ∅ jobs10).map DownloadJob.id = [1, 2, 3] ∧
      (jobs10.filter (fun j =>
        !(((process_pending_jobs 3 ∅ jobs10).map DownloadJob.id).contains j.id))).length = 7 ∧
      ∀ j ∈ jobs10.filter (fun j =>
        !(((process_pending_jobs 3 ∅ jobs10).map DownloadJob.id).contains j.id)),
        j.status = DownloadStatus.PENDING) ∧
    (∀ (seen : List Nat) (claimed : List DownloadJob),
      startsCovered seen (poll_trace claimed) = true) := by
  refine ⟨?_, ?_, fun seen claimed => startsCovered_poll_trace claimed seen⟩
  · intro C s store
    refine ⟨?_, ?_, process_pending_jobs_length_le C s store⟩
    · exact (List.sorted_insertionSort _ _).sublist
        (process_pending_jobs_sublist_sorted C s store)
    · intro j hj
      have hmem : j ∈ (store.filter
          (fun j => j.status = DownloadStatus.PENDING)).insertionSort
            (fun a b => a.created_at ≤ b.created_at) :=
        (process_pending_jobs_sublist_sorted C s store).mem hj
      have hpend : j.status = DownloadStatus.PENDING := by
        have := ((List.perm_insertionSort
          (fun a b : DownloadJob => a.created_at ≤ b.created_at) _).mem_iff.mp hmem)
        exact of_decide_eq_true (List.mem_filter.mp this).2
      refine ⟨hpend, ?_⟩
      unfold process_pending_jobs at hj
      dsimp only at hj
      rcases Classical.em (((C : Int) - s.card) ≤ 0) with hc | hc
      · rw [if_pos hc] at hj
        exact absurd hj (List.not_mem_nil j)
      · rw [if_neg hc] at hj
        have := List.mem_of_mem_take hj
        exact of_decide_eq_true (List.mem_filter.mp this).2
  · refine ⟨?_, ?_, ?_⟩
    · decide
    · decide
    · decide

/-- C7 witness: the oldest job (id 1) of the concrete ten-job scenario is
claimed by the first poll, is PENDING and is not in the (empty) in-flight
set. -/
theorem fifo_claiming_witness :
    mkJob 1 ∈ process_pending_jobs 3 ∅ jobs10 ∧
    (mkJob 1).status = DownloadStatus.PENDING ∧ (mkJob 1).id ∉ (∅ : Finset Nat) :=
  ⟨by decide, (fifo_claiming.1 3 ∅ jobs10).2.1 (mkJob 1) (by decide)⟩

/-- The cumulative effect on one character of the successive
`filename.replace(char, "_")` calls of `_sanitize_filename`. -/
def chainReplace (cs : List Char) (x : Char) : Char :=
  cs.foldl (fun y c => if y = c then '_' else y) x

theorem fold_replace_eq_map (cs : List Char) (l : List Char) :
    cs.foldl (fun acc c => replace_char c acc) l = l.map (chainReplace cs) := by
  induction cs generalizing l with
  | nil => exact (List.map_id' l).symm
  | cons c cs ih =>
    rw [List.foldl_cons, ih, replace_char, List.map_map]
    rfl

theorem chainReplace_underscore (cs : List Char) : chainReplace cs '_' = '_' := by
  induction cs with
  | nil => rfl
  | cons c cs ih =>
    simp only [chainReplace, List.foldl_cons, ite_self] at ih ⊢
    exact ih

theorem chainReplace_not_mem (cs : List Char) (x : Char) (h : x ∉ cs) :
    chainReplace cs x = x := by
  induction cs with
  | nil => rfl
  | cons c cs ih =>
    simp only [List.mem_cons, not_or] at h
    simp only [chainReplace, List.foldl_cons, if_neg h.1] at ih ⊢
    exact ih h.2

theorem chainReplace_mem_or (cs : List Char) (x : Char) :
    chainReplace cs x = '_' ∨ (chainReplace cs x = x ∧ x ∉ cs) := by
  induction cs with
  | nil => exact Or.inr ⟨rfl, by simp⟩
  | cons c cs ih =>
    by_cases hxc : x = c
    · left
      simp only [chainReplace, List.foldl_cons, if_pos hxc]
      exact chainReplace_underscore cs
    · have hstep : chainReplace (c :: cs) x = chainReplace cs x := by
        simp only [chainReplace, List.foldl_cons, if_neg hxc]
      rcases ih with h | ⟨h1, h2⟩
      · exact Or.inl (hstep.trans h)
      · exact Or.inr ⟨hstep.trans h1, by simp [hxc, h2]⟩

/-- C9: `_sanitize_filename` always returns at most 100 characters containing
none of the invalid characters; an input that already has no invalid
character and at most 100 characters is returned unchanged. -/
theorem sanitize_filename_spec (s : String) :
    (sanitize_filename s).length ≤ 100 ∧
    (∀ c ∈ (sanitize_filename s).data, c ∉ invalid_chars) ∧
    (s.length ≤ 100 → (∀ c ∈ s.data, c ∉ invalid_chars) →
      sanitize_filename s = s) := by
  refine ⟨?_, ?_, ?_⟩
  · exact List.length_take_le _ _
  · intro c hc
    have hc' : c ∈ (invalid_chars.foldl (fun acc d => replace_char d acc) s.data) := by
      exact List.mem_of_mem_take hc
    rw [fold_replace_eq_map] at hc'
    rcases List.mem_map.mp hc' with ⟨x, _, hx⟩
    rcases chainReplace_mem_or invalid_chars x with h | ⟨h1, h2⟩
    · rw [← hx, h]
      decide
    · rw [← hx, h1]
      exact h2
  · intro hlen hclean
    unfold sanitize_filename
    rw [fold_replace_eq_map,
      List.map_congr_left (fun c hc => chainReplace_not_mem invalid_chars c (hclean c hc)),
      List.map_id', List.take_of_length_le hlen]

/-- C9 witness: `"report 2024.mp4"` (clean, short) passes through unchanged
and satisfies both bounds. -/
theorem sanitize_filename_spec_witness :
    (sanitize_filename ("report 2024.mp4")).length ≤ 100 ∧
    sanitize_filename ("report 2024.mp4") = "report 2024.mp4" :=
  ⟨(sanitize_filename_spec ("report 2024.mp4")).1,
    (sanitize_filename_spec ("report 2024.mp4")).2.2 (by decide) (by decide)⟩

end ClassroomDownloader
